import Mathlib

/-!
# Verification of the person data-access service

Shallow embedding of `packages/lib/services/person.ts` (formbricks).
The Prisma store is modelled as an explicit relational state (`DB`);
thrown JavaScript errors as the inductive `JsError`; each service
operation returns an `OpResult` recording the outcome, the updated
store, the cache tags revalidated, and the number of store/collaborator
invocations.  An optional `Option JsError` argument injects a failure
of the corresponding awaited store call (`none` = the call succeeds
against the modelled store), mirroring a `throw` from the Prisma client.
-/

set_option autoImplicit false

namespace PersonService

/-- Thrown JavaScript errors relevant to the service:
`PrismaClientKnownRequestError` (the "known operational" category),
the `DatabaseError`, `ResourceNotFoundError` and `ValidationError`
classes from `@formbricks/types/v1/errors`, and a plain `Error` with a
message (e.g. the "Attribute class not found" error). -/
inductive JsError where
  | prismaKnownRequestError (message : String)
  | databaseError (message : String)
  | resourceNotFoundError (resource : String) (id : String)
  | validationError (message : String)
  | genericError (message : String)
  deriving DecidableEq, Repr

/-- Nested `attributeClass: { select: { name: true } }` shape of `selectPerson`. -/
structure PrismaAttrClass where
  name : String
  deriving DecidableEq, Repr

/-- One element of the `attributes` array produced by `selectPerson`:
`{ value, attributeClass: { name } }`. -/
structure PrismaAttr where
  value : String
  attributeClass : PrismaAttrClass
  deriving DecidableEq, Repr

/-- The `TransformPersonInput` type of person.ts (dates as `Nat` ticks). -/
structure TransformPersonInput where
  id : String
  attributes : List PrismaAttr
  createdAt : Nat
  updatedAt : Nat
  deriving DecidableEq, Repr

/-- The `TPerson` shape: `attributes` is a JavaScript object, modelled as an
insertion-ordered association list with unique keys. -/
structure TPerson where
  id : String
  attributes : List (String × String)
  createdAt : Nat
  updatedAt : Nat
  deriving DecidableEq, Repr

/-- JavaScript property assignment `acc[k] = v` on an object with unique keys:
overwrite the entry holding `k` if present, otherwise append `(k, v)`. -/
def recordSet : List (String × String) → String → String → List (String × String)
  | [], k, v => [(k, v)]
  | (k0, v0) :: t, k, v =>
    if k0 == k then (k0, v) :: t else (k0, v0) :: recordSet t k v

/-- JavaScript property read `m[k]`. -/
def recordLookup : List (String × String) → String → Option String
  | [], _ => none
  | (k0, v0) :: t, k => if k == k0 then some v0 else recordLookup t k

/-- `transformPrismaPerson` of person.ts: fold the `(value, attributeClass.name)`
pairs into the `attributes` object with `acc[attr.attributeClass.name] = attr.value`. -/
def transformPrismaPerson (person : TransformPersonInput) : TPerson :=
  { id := person.id
    attributes :=
      person.attributes.foldl
        (fun acc attr => recordSet acc attr.attributeClass.name attr.value) []
    createdAt := person.createdAt
    updatedAt := person.updatedAt }

/-- A row of the `Person` table. -/
structure PersonRow where
  id : String
  environmentId : String
  createdAt : Nat
  updatedAt : Nat
  deriving DecidableEq, Repr

/-- A row of the `Attribute` table; `(attributeClassId, personId)` is the
composite unique key used by the upsert. -/
structure AttributeRow where
  personId : String
  attributeClassId : String
  value : String
  deriving DecidableEq, Repr

/-- A row of the `AttributeClass` table. -/
structure AttributeClassRow where
  id : String
  environmentId : String
  name : String
  archived : Bool
  deriving DecidableEq, Repr

/-- The relational store the Prisma client queries. -/
structure DB where
  persons : List PersonRow
  attributes : List AttributeRow
  attributeClasses : List AttributeClassRow
  deriving DecidableEq, Repr

/-- The `attributes` part of the `selectPerson` selection for one person:
the person's attribute rows joined with their attribute class, keeping only
rows whose class is not archived (`where: { attributeClass: { archived: false } }`),
each projected to `{ value, attributeClass: { name } }`. -/
def selectPersonAttributes (db : DB) (personId : String) : List PrismaAttr :=
  (db.attributes.filter (fun a => a.personId == personId)).filterMap (fun a =>
    match db.attributeClasses.find? (fun c => c.id == a.attributeClassId) with
    | some c =>
      if c.archived then none
      else some { value := a.value, attributeClass := { name := c.name } }
    | none => none)

/-- Apply the `selectPerson` selection to one person row. -/
def personToInput (db : DB) (p : PersonRow) : TransformPersonInput :=
  { id := p.id
    attributes := selectPersonAttributes db p.id
    createdAt := p.createdAt
    updatedAt := p.updatedAt }

/-- `prisma.person.findUnique({ where: { id }, select: selectPerson })`. -/
def findUniquePerson (db : DB) (personId : String) : Option TransformPersonInput :=
  (db.persons.find? (fun p => p.id == personId)).map (personToInput db)

/-- `prisma.person.findMany({ where: { environmentId }, select: selectPerson })`.
The Prisma client returns an array (possibly empty), never a nullish value,
hence the result is always `some`; the service still checks for `none`. -/
def findManyPersons (db : DB) (environmentId : String) :
    Option (List TransformPersonInput) :=
  some ((db.persons.filter (fun p => p.environmentId == environmentId)).map
    (personToInput db))

/-- Modelled from the spec: `validateInputs([x, ZId])` from `../utils/validate`
(not part of this fragment) checks the identifier against the `ZId` format and
throws a `ValidationError` before any store access when it does not conform.
The format check is the parameter `isZId`. -/
def validateInputs (isZId : String → Bool) (s : String) : Except JsError Unit :=
  if isZId s then Except.ok () else Except.error (JsError.validationError "Validation failed")

/-- The shared `catch` block of `getPerson`/`getPeople`/`deletePerson`:
a `PrismaClientKnownRequestError` is rewrapped into
`new DatabaseError("Database operation failed")`; anything else is rethrown. -/
def rewrapPersonError (e : JsError) : JsError :=
  match e with
  | JsError.prismaKnownRequestError _ => JsError.databaseError "Database operation failed"
  | e => e

/-- The `catch` block of `createPerson`: a `PrismaClientKnownRequestError` is
rewrapped into `new DatabaseError(error.message)`; anything else is rethrown. -/
def rewrapCreateError (e : JsError) : JsError :=
  match e with
  | JsError.prismaKnownRequestError msg => JsError.databaseError msg
  | e => e

/-- Observable outcome of one service operation: the returned value or thrown
error, the store after the call, the cache tags passed to `revalidateTag`,
and how many store/collaborator calls were issued. -/
structure OpResult (α : Type) where
  result : Except JsError α
  db : DB
  revalidated : List String
  storeCalls : Nat
  deriving Repr

/-- `getPerson(personId)` of person.ts. -/
def getPerson (isZId : String → Bool) (storeFail : Option JsError) (db : DB)
    (personId : String) : OpResult (Option TPerson) :=
  match validateInputs isZId personId with
  | Except.error e => ⟨Except.error e, db, [], 0⟩
  | Except.ok _ =>
    match storeFail with
    | some e => ⟨Except.error (rewrapPersonError e), db, [], 1⟩
    | none =>
      match findUniquePerson db personId with
      | none => ⟨Except.ok none, db, [], 1⟩
      | some personPrisma => ⟨Except.ok (some (transformPrismaPerson personPrisma)), db, [], 1⟩

/-- `getPersonCacheKey` of person.ts. -/
def getPersonCacheKey (personId : String) : List String := [personId]

/-- Configuration and computation handed to `unstable_cache` by a caching wrapper. -/
structure CachedOp (α : Type) where
  keyParts : List String
  tags : List String
  revalidate : Nat
  compute : α

/-- `getPersonCached(personId)` of person.ts: wraps `getPerson(personId)` in
`unstable_cache` with key `getPersonCacheKey(personId)`, tags
`getPersonCacheKey(personId)` and `revalidate: 30 * 60`. -/
def getPersonCached (isZId : String → Bool) (storeFail : Option JsError) (db : DB)
    (personId : String) : CachedOp (OpResult (Option TPerson)) :=
  { keyParts := getPersonCacheKey personId
    tags := getPersonCacheKey personId
    revalidate := 30 * 60
    compute := getPerson isZId storeFail db personId }

/-- One entry of the process-wide cache. -/
structure CacheEntry (α : Type) where
  keyParts : List String
  tags : List String
  value : α
  storedAt : Nat

/-- The process-wide cache state. -/
structure CacheState (α : Type) where
  entries : List (CacheEntry α)

/-- Modelled from the spec: the lookup half of the external CacheLayer
(`unstable_cache` of next/cache, not part of this fragment) — a stored value
is served only while younger than its `revalidate` window. -/
def cacheFreshLookup {α : Type} (cache : CacheState α) (keyParts : List String)
    (revalidate now : Nat) : Option α :=
  match cache.entries.find? (fun e => e.keyParts == keyParts) with
  | some e => if now < e.storedAt + revalidate then some e.value else none
  | none => none

/-- Modelled from the spec: running an `unstable_cache`-wrapped computation —
serve a fresh memoized value when present, otherwise compute and memoize the
result under the key with its tags and timestamp. -/
def runCached {α : Type} (op : CachedOp α) (cache : CacheState α) (now : Nat) :
    α × CacheState α :=
  match cacheFreshLookup cache op.keyParts op.revalidate now with
  | some v => (v, cache)
  | none =>
    (op.compute,
      ⟨⟨op.keyParts, op.tags, op.compute, now⟩ ::
        cache.entries.filter (fun e => !(e.keyParts == op.keyParts))⟩)

/-- `getPeople(environmentId)` of person.ts. -/
def getPeople (isZId : String → Bool) (storeFail : Option JsError) (db : DB)
    (environmentId : String) : OpResult (List TPerson) :=
  match validateInputs isZId environmentId with
  | Except.error e => ⟨Except.error e, db, [], 0⟩
  | Except.ok _ =>
    match storeFail with
    | some e => ⟨Except.error (rewrapPersonError e), db, [], 1⟩
    | none =>
      match findManyPersons db environmentId with
      | none =>
        ⟨Except.error (rewrapPersonError (JsError.resourceNotFoundError "Persons" "All Persons")),
          db, [], 1⟩
      | some personsPrisma =>
        ⟨Except.ok (personsPrisma.map transformPrismaPerson), db, [], 1⟩

/-- `createPerson(environmentId)` of person.ts.  `newId` and `ts` stand for the
id and timestamps generated by the store for the created row; the created
person (a non-null object, hence truthy) always has its tag revalidated. -/
def createPerson (isZId : String → Bool) (storeFail : Option JsError)
    (newId : String) (ts : Nat) (db : DB) (environmentId : String) : OpResult TPerson :=
  match validateInputs isZId environmentId with
  | Except.error e => ⟨Except.error e, db, [], 0⟩
  | Except.ok _ =>
    match storeFail with
    | some e => ⟨Except.error (rewrapCreateError e), db, [], 1⟩
    | none =>
      let row : PersonRow := ⟨newId, environmentId, ts, ts⟩
      let db1 : DB := { db with persons := db.persons ++ [row] }
      let person := transformPrismaPerson (personToInput db1 row)
      ⟨Except.ok person, db1, [person.id], 1⟩

/-- `deletePerson(personId)` of person.ts.  Deleting an id with no matching
row makes the Prisma client throw a `PrismaClientKnownRequestError`; on
success the person row and (store-side cascade) its attribute rows are
removed and `revalidateTag(personId)` runs. -/
def deletePerson (isZId : String → Bool) (storeFail : Option JsError) (db : DB)
    (personId : String) : OpResult Unit :=
  match validateInputs isZId personId with
  | Except.error e => ⟨Except.error e, db, [], 0⟩
  | Except.ok _ =>
    match storeFail with
    | some e => ⟨Except.error (rewrapPersonError e), db, [], 1⟩
    | none =>
      match db.persons.find? (fun p => p.id == personId) with
      | none =>
        ⟨Except.error
          (rewrapPersonError (JsError.prismaKnownRequestError "Record to delete does not exist.")),
          db, [], 1⟩
      | some _ =>
        ⟨Except.ok (),
          { db with
            persons := db.persons.filter (fun p => !(p.id == personId))
            attributes := db.attributes.filter (fun a => !(a.personId == personId)) },
          [personId], 1⟩

/-- Modelled from the spec: `getAttributeClassByName(environmentId, name)` from
`./attributeClass` (not part of this fragment) resolves the attribute class
with the given name scoped to the environment, or absent. -/
def getAttributeClassByName (db : DB) (environmentId name : String) :
    Option AttributeClassRow :=
  db.attributeClasses.find? (fun c => c.environmentId == environmentId && c.name == name)

/-- The `where` filter of the `findFirst` in `getOrCreatePersonByUserId`:
the person belongs to the environment and has some attribute whose class is
named "userId" and whose value is the given user id (no archived filter here). -/
def personMatchesUserId (db : DB) (environmentId userId : String) (p : PersonRow) : Bool :=
  p.environmentId == environmentId &&
    db.attributes.any (fun a =>
      a.personId == p.id && a.value == userId &&
      match db.attributeClasses.find? (fun c => c.id == a.attributeClassId) with
      | some c => c.name == "userId"
      | none => false)

/-- The `prisma.person.findFirst` call of `getOrCreatePersonByUserId`. -/
def findFirstPersonByUserId (db : DB) (environmentId userId : String) :
    Option TransformPersonInput :=
  (db.persons.find? (personMatchesUserId db environmentId userId)).map (personToInput db)

/-- `getOrCreatePersonByUserId(userId, environmentId)` of person.ts.
`findFail` injects a failure of the `findFirst` call and `createFail` one of
the `create` call; `newId`/`ts` are the id and timestamps the store generates
for a created row.  There is no input validation and no try/catch here. -/
def getOrCreatePersonByUserId (findFail createFail : Option JsError)
    (newId : String) (ts : Nat) (db : DB) (userId environmentId : String) :
    OpResult TPerson :=
  match findFail with
  | some e => ⟨Except.error e, db, [], 1⟩
  | none =>
    match findFirstPersonByUserId db environmentId userId with
    | some personPrisma => ⟨Except.ok (transformPrismaPerson personPrisma), db, [], 1⟩
    | none =>
      match getAttributeClassByName db environmentId "userId" with
      | none =>
        ⟨Except.error (JsError.genericError "Attribute class not found for the given environmentId"),
          db, [], 2⟩
      | some userIdAttributeClass =>
        match createFail with
        | some e => ⟨Except.error e, db, [], 3⟩
        | none =>
          let row : PersonRow := ⟨newId, environmentId, ts, ts⟩
          let attrRow : AttributeRow := ⟨newId, userIdAttributeClass.id, userId⟩
          let db1 : DB :=
            { db with
              persons := db.persons ++ [row]
              attributes := db.attributes ++ [attrRow] }
          ⟨Except.ok (transformPrismaPerson (personToInput db1 row)), db1, [newId], 3⟩

/-- `prisma.attribute.upsert` on the composite unique key
`attributeClassId_personId`: update the matching row's value when one exists,
otherwise create the row connected to the given class and person. -/
def upsertAttribute (db : DB) (attributeClassId personId value : String) : DB :=
  if db.attributes.any (fun a => a.attributeClassId == attributeClassId && a.personId == personId) then
    { db with
      attributes := db.attributes.map (fun a =>
        if a.attributeClassId == attributeClassId && a.personId == personId then
          { a with value := value }
        else a) }
  else
    { db with attributes := db.attributes ++ [⟨personId, attributeClassId, value⟩] }

/-- `updatePersonAttribute(personId, attributeClassId, value)` of person.ts:
an unconditional upsert followed by `revalidateTag(personId)`; no input
validation and no try/catch. -/
def updatePersonAttribute (storeFail : Option JsError) (db : DB)
    (personId attributeClassId value : String) : OpResult Unit :=
  match storeFail with
  | some e => ⟨Except.error e, db, [], 1⟩
  | none =>
    ⟨Except.ok (), upsertAttribute db attributeClassId personId value, [personId], 1⟩

/-- Whether an operation outcome is a success. -/
def exceptIsOk {α : Type} : Except JsError α → Bool
  | Except.ok _ => true
  | Except.error _ => false

/-- The empty store. -/
def emptyDB : DB := ⟨[], [], []⟩

/-- The attribute rows of the store holding the composite unique key
`(attributeClassId, personId)`. -/
def pairFilter (db : DB) (attributeClassId personId : String) : List AttributeRow :=
  db.attributes.filter (fun a => a.attributeClassId == attributeClassId && a.personId == personId)

/-- C1 (amended): for every malformed identifier, `getPerson` and
`deletePerson` fail with a ValidationError before any store call (zero store
invocations), while `updatePersonAttribute` performs no identifier validation
and always issues its store call (one upsert) regardless of identifier format. -/
theorem claim_C1_amended (isZId : String → Bool) (storeFail : Option JsError) (db : DB)
    (personId attributeClassId value : String) (hmal : isZId personId = false) :
    (getPerson isZId storeFail db personId).result
        = Except.error (JsError.validationError "Validation failed") ∧
    (getPerson isZId storeFail db personId).storeCalls = 0 ∧
    (deletePerson isZId storeFail db personId).result
        = Except.error (JsError.validationError "Validation failed") ∧
    (deletePerson isZId storeFail db personId).storeCalls = 0 ∧
    (updatePersonAttribute storeFail db personId attributeClassId value).storeCalls = 1 := by
  refine ⟨?_, ?_, ?_, ?_, ?_⟩ <;>
    first
      | simp [getPerson, deletePerson, validateInputs, hmal]
      | (cases storeFail <;> rfl)

/-- C1 (counterexample to the claim as stated): the identifier `""` is
malformed under any reasonable format check (here: non-emptiness), yet
`updatePersonAttribute` issues one store call and completes without raising a
ValidationError. -/
theorem claim_C1_counterexample :
    (fun s : String => !s.isEmpty) "" = false ∧
    (updatePersonAttribute none emptyDB "" "ac1" "v").storeCalls = 1 ∧
    (updatePersonAttribute none emptyDB "" "ac1" "v").result = Except.ok () :=
  ⟨rfl, rfl, rfl⟩

/-- C1 witness: the amended claim instantiated at the malformed identifier `""`. -/
theorem claim_C1_amended_witness :
    (getPerson (fun s => !s.isEmpty) none emptyDB "").result
        = Except.error (JsError.validationError "Validation failed") ∧
    (getPerson (fun s => !s.isEmpty) none emptyDB "").storeCalls = 0 ∧
    (deletePerson (fun s => !s.isEmpty) none emptyDB "").result
        = Except.error (JsError.validationError "Validation failed") ∧
    (deletePerson (fun s => !s.isEmpty) none emptyDB "").storeCalls = 0 ∧
    (updatePersonAttribute none emptyDB "" "ac1" "v").storeCalls = 1 :=
  claim_C1_amended (fun s => !s.isEmpty) none emptyDB "" "ac1" "v" (by decide)

/-- C2: with a valid identifier, a store failure of the known operational
category (`PrismaClientKnownRequestError`) is rewrapped by `getPerson`,
`getPeople` and `deletePerson` into `DatabaseError "Database operation failed"`
and by `createPerson` into a `DatabaseError` carrying the original message,
while any error outside that category propagates unchanged from all four. -/
theorem claim_C2 (isZId : String → Bool) (db : DB)
    (personId environmentId envc newId : String) (ts : Nat) (msg : String) (e : JsError)
    (hp : isZId personId = true) (he : isZId environmentId = true) (hc : isZId envc = true)
    (hother : ∀ m, e ≠ JsError.prismaKnownRequestError m) :
    (getPerson isZId (some (JsError.prismaKnownRequestError msg)) db personId).result
        = Except.error (JsError.databaseError "Database operation failed") ∧
    (getPeople isZId (some (JsError.prismaKnownRequestError msg)) db environmentId).result
        = Except.error (JsError.databaseError "Database operation failed") ∧
    (deletePerson isZId (some (JsError.prismaKnownRequestError msg)) db personId).result
        = Except.error (JsError.databaseError "Database operation failed") ∧
    (createPerson isZId (some (JsError.prismaKnownRequestError msg)) newId ts db envc).result
        = Except.error (JsError.databaseError msg) ∧
    (getPerson isZId (some e) db personId).result = Except.error e ∧
    (getPeople isZId (some e) db environmentId).result = Except.error e ∧
    (deletePerson isZId (some e) db personId).result = Except.error e ∧
    (createPerson isZId (some e) newId ts db envc).result = Except.error e := by
  have hre : rewrapPersonError e = e := by
    cases e with
    | prismaKnownRequestError m => exact absurd rfl (hother m)
    | databaseError m => rfl
    | resourceNotFoundError r i => rfl
    | validationError m => rfl
    | genericError m => rfl
  have hce : rewrapCreateError e = e := by
    cases e with
    | prismaKnownRequestError m => exact absurd rfl (hother m)
    | databaseError m => rfl
    | resourceNotFoundError r i => rfl
    | validationError m => rfl
    | genericError m => rfl
  refine ⟨?_, ?_, ?_, ?_, ?_, ?_, ?_, ?_⟩
  · simp [getPerson, validateInputs, hp, rewrapPersonError]
  · simp [getPeople, validateInputs, he, rewrapPersonError]
  · simp [deletePerson, validateInputs, hp, rewrapPersonError]
  · simp [createPerson, validateInputs, hc, rewrapCreateError]
  · simp [getPerson, validateInputs, hp, hre]
  · simp [getPeople, validateInputs, he, hre]
  · simp [deletePerson, validateInputs, hp, hre]
  · simp [createPerson, validateInputs, hc, hce]

/-- C2 witness: the rewrapping behaviour instantiated at a concrete known
operational failure and a concrete unrecognized error. -/
theorem claim_C2_witness :
    (getPerson (fun _ => true) (some (JsError.prismaKnownRequestError "m")) emptyDB "p1").result
        = Except.error (JsError.databaseError "Database operation failed") ∧
    (createPerson (fun _ => true) (some (JsError.prismaKnownRequestError "m")) "n1" 0 emptyDB "e1").result
        = Except.error (JsError.databaseError "m") ∧
    (getPerson (fun _ => true) (some (JsError.genericError "g")) emptyDB "p1").result
        = Except.error (JsError.genericError "g") :=
  have h := claim_C2 (fun _ => true) emptyDB "p1" "e1" "e1" "n1" 0 "m"
    (JsError.genericError "g") rfl rfl rfl (fun _ hm => JsError.noConfusion hm)
  ⟨h.1, h.2.2.2.1, h.2.2.2.2.1⟩

/-- C4: with a valid identifier, absence of data is not an error — `getPerson`
on an id matching no person row returns `ok none`, and `getPeople` on an
environment containing no persons returns `ok []`. -/
theorem claim_C4 (isZId : String → Bool) (db : DB) (personId environmentId : String)
    (hp : isZId personId = true) (he : isZId environmentId = true)
    (hnone : db.persons.find? (fun p => p.id == personId) = none)
    (hempty : db.persons.filter (fun p => p.environmentId == environmentId) = []) :
    (getPerson isZId none db personId).result = Except.ok none ∧
    (getPeople isZId none db environmentId).result = Except.ok [] := by
  constructor
  · simp [getPerson, validateInputs, hp, findUniquePerson, hnone]
  · simp [getPeople, validateInputs, he, findManyPersons, hempty]

/-- C4 witness: the empty store instantiation. -/
theorem claim_C4_witness :
    (getPerson (fun _ => true) none emptyDB "p1").result = Except.ok none ∧
    (getPeople (fun _ => true) none emptyDB "e1").result = Except.ok [] :=
  claim_C4 (fun _ => true) emptyDB "p1" "e1" rfl rfl rfl rfl

/-- C6: `getPersonCached` memoizes under cache key `[personId]`, tag
`[personId]` and a 30-minute (1800 s) expiry, its computation is exactly
`getPerson` on the same state, and running it when the cache holds no fresh
entry for that key returns precisely `getPerson`'s result. -/
theorem claim_C6 (isZId : String → Bool) (storeFail : Option JsError) (db : DB)
    (personId : String) (cache : CacheState (OpResult (Option TPerson))) (now : Nat)
    (hmiss : cacheFreshLookup cache (getPersonCached isZId storeFail db personId).keyParts
        (getPersonCached isZId storeFail db personId).revalidate now = none) :
    (getPersonCached isZId storeFail db personId).keyParts = [personId] ∧
    (getPersonCached isZId storeFail db personId).tags = [personId] ∧
    (getPersonCached isZId storeFail db personId).revalidate = 1800 ∧
    (getPersonCached isZId storeFail db personId).compute = getPerson isZId storeFail db personId ∧
    (runCached (getPersonCached isZId storeFail db personId) cache now).1
        = getPerson isZId storeFail db personId := by
  refine ⟨rfl, rfl, rfl, rfl, ?_⟩
  have hmiss1 : cacheFreshLookup cache [personId] 1800 now = none := hmiss
  simp [runCached, getPersonCached, getPersonCacheKey, hmiss1]

/-- C6 witness: the cached read instantiated on an empty cache. -/
theorem claim_C6_witness :
    (getPersonCached (fun _ => true) none emptyDB "p1").keyParts = ["p1"] ∧
    (getPersonCached (fun _ => true) none emptyDB "p1").tags = ["p1"] ∧
    (getPersonCached (fun _ => true) none emptyDB "p1").revalidate = 1800 ∧
    (getPersonCached (fun _ => true) none emptyDB "p1").compute
        = getPerson (fun _ => true) none emptyDB "p1" ∧
    (runCached (getPersonCached (fun _ => true) none emptyDB "p1") ⟨[]⟩ 0).1
        = getPerson (fun _ => true) none emptyDB "p1" :=
  claim_C6 (fun _ => true) none emptyDB "p1" ⟨[]⟩ 0 rfl

/-- C9: `updatePersonAttribute` and `getOrCreatePersonByUserId` never rewrap a
store failure — an error raised at the upsert, at the findFirst, or at the
create propagates to the caller unchanged (in particular a
`PrismaClientKnownRequestError` is not turned into a `DatabaseError`). -/
theorem claim_C9 (e : JsError) (db : DB)
    (personId attributeClassId value userId environmentId newId : String) (ts : Nat)
    (createFail : Option JsError) (cls : AttributeClassRow)
    (hfind : findFirstPersonByUserId db environmentId userId = none)
    (hcls : getAttributeClassByName db environmentId "userId" = some cls) :
    (updatePersonAttribute (some e) db personId attributeClassId value).result
        = Except.error e ∧
    (getOrCreatePersonByUserId (some e) createFail newId ts db userId environmentId).result
        = Except.error e ∧
    (getOrCreatePersonByUserId none (some e) newId ts db userId environmentId).result
        = Except.error e := by
  refine ⟨rfl, rfl, ?_⟩
  simp [getOrCreatePersonByUserId, hfind, hcls]

/-- C9 witness: a known operational store failure propagating unchanged from
both operations. -/
theorem claim_C9_witness :
    (updatePersonAttribute (some (JsError.prismaKnownRequestError "m")) emptyDB "p1" "ac1" "v").result
        = Except.error (JsError.prismaKnownRequestError "m") ∧
    (getOrCreatePersonByUserId (some (JsError.prismaKnownRequestError "m")) none "n1" 0
        (DB.mk [] [] [⟨"ac1", "e1", "userId", false⟩]) "u1" "e1").result
        = Except.error (JsError.prismaKnownRequestError "m") ∧
    (getOrCreatePersonByUserId none (some (JsError.prismaKnownRequestError "m")) "n1" 0
        (DB.mk [] [] [⟨"ac1", "e1", "userId", false⟩]) "u1" "e1").result
        = Except.error (JsError.prismaKnownRequestError "m") :=
  claim_C9 (JsError.prismaKnownRequestError "m") (DB.mk [] [] [⟨"ac1", "e1", "userId", false⟩])
    "p1" "ac1" "v" "u1" "e1" "n1" 0 none ⟨"ac1", "e1", "userId", false⟩ rfl (by decide)

/-- C10: for `deletePerson` and `updatePersonAttribute` the tag `personId` is
revalidated exactly when the operation succeeds — on any error (validation
failure, injected store failure, or a missing row on delete) no cache
invalidation happens. -/
theorem claim_C10 (isZId : String → Bool) (storeFail : Option JsError) (db : DB)
    (personId attributeClassId value : String) :
    (deletePerson isZId storeFail db personId).revalidated
        = (if exceptIsOk (deletePerson isZId storeFail db personId).result
            then [personId] else []) ∧
    (updatePersonAttribute storeFail db personId attributeClassId value).revalidated
        = (if exceptIsOk (updatePersonAttribute storeFail db personId attributeClassId value).result
            then [personId] else []) := by
  constructor
  · cases h : validateInputs isZId personId with
    | error e => simp [deletePerson, h, exceptIsOk]
    | ok u =>
      cases storeFail with
      | some e => simp [deletePerson, h, exceptIsOk]
      | none =>
        cases hf : db.persons.find? (fun p => p.id == personId) with
        | none => simp [deletePerson, h, hf, exceptIsOk]
        | some p => simp [deletePerson, h, hf, exceptIsOk]
  · cases storeFail <;> rfl

/-- JavaScript assignment followed by a read: the assigned key now maps to the
assigned value, all other keys are untouched. -/
theorem recordLookup_recordSet (m : List (String × String)) (k v k' : String) :
    recordLookup (recordSet m k v) k' = if k' == k then some v else recordLookup m k' := by
  induction m with
  | nil =>
    by_cases h : k' = k <;> simp [recordSet, recordLookup, h]
  | cons p t ih =>
    obtain ⟨k0, v0⟩ := p
    by_cases h0 : k0 = k
    · subst h0
      by_cases h' : k' = k0 <;> simp [recordSet, recordLookup, h']
    · by_cases h' : k' = k0 <;> by_cases h'' : k' = k <;>
        simp_all [recordSet, recordLookup]

/-- Reading a key out of the object built by the `transformPrismaPerson` fold
yields the value of the last attribute carrying that name (later entries win),
falling back to the accumulator. -/
theorem recordLookup_foldl (l : List PrismaAttr) (acc : List (String × String)) (k : String) :
    recordLookup
        (l.foldl (fun acc attr => recordSet acc attr.attributeClass.name attr.value) acc) k
      = ((l.reverse.find? (fun a => a.attributeClass.name == k)).map (fun a => a.value)).or
          (recordLookup acc k) := by
  induction l generalizing acc with
  | nil => simp
  | cons a t ih =>
    rw [List.foldl_cons, ih, recordLookup_recordSet, List.reverse_cons, List.find?_append]
    cases hf : t.reverse.find? (fun a => a.attributeClass.name == k) with
    | some b => rfl
    | none =>
      by_cases h : a.attributeClass.name = k
      · simp [List.find?_cons, h]
      · simp [List.find?_cons, h]
        intro h2
        exact absurd h2.symm h

/-- C3: `transformPrismaPerson` builds the `attributes` object by assigning
`map[name] = value` over the pairs in sequence order, so reading any name
yields the value of the last pair carrying that name (later entries win), and
a name occurring in no pair is absent from the result. -/
theorem claim_C3 (person : TransformPersonInput) (k : String) :
    recordLookup (transformPrismaPerson person).attributes k
      = (person.attributes.reverse.find? (fun a => a.attributeClass.name == k)).map
          (fun a => a.value) := by
  have h := recordLookup_foldl person.attributes [] k
  simpa [transformPrismaPerson, recordLookup] using h

/-- Every pair of the object built by the fold either was already in the
accumulator or carries the name of one of the folded attributes. -/
theorem mem_foldl_recordSet (l : List PrismaAttr) (acc : List (String × String))
    (pr : String × String)
    (h : pr ∈ l.foldl (fun acc attr => recordSet acc attr.attributeClass.name attr.value) acc) :
    pr ∈ acc ∨ ∃ a ∈ l, pr.1 = a.attributeClass.name := by
  induction l generalizing acc with
  | nil =>
    simp only [List.foldl_nil] at h
    exact Or.inl h
  | cons a t ih =>
    simp only [List.foldl_cons] at h
    rcases ih _ h with h1 | h1
    · have hmem : pr ∈ acc ∨ pr.1 = a.attributeClass.name := by
        clear ih h
        induction acc with
        | nil =>
          simp [recordSet] at h1
          simp [h1]
        | cons q m ihm =>
          obtain ⟨k0, v0⟩ := q
          by_cases h0 : k0 = a.attributeClass.name
          · have hset : recordSet ((k0, v0) :: m) a.attributeClass.name a.value
                = (k0, a.value) :: m := by
              simp [recordSet, h0]
            rw [hset] at h1
            rcases List.mem_cons.mp h1 with h2 | h2
            · subst h2; right; exact h0
            · left; exact List.mem_cons_of_mem _ h2
          · have hset : recordSet ((k0, v0) :: m) a.attributeClass.name a.value
                = (k0, v0) :: recordSet m a.attributeClass.name a.value := by
              simp [recordSet, h0]
            rw [hset] at h1
            rcases List.mem_cons.mp h1 with h2 | h2
            · subst h2; left; exact List.mem_cons_self _ _
            · rcases ihm h2 with h3 | h3
              · left; exact List.mem_cons_of_mem _ h3
              · right; exact h3
      rcases hmem with h2 | h2
      · exact Or.inl h2
      · exact Or.inr ⟨a, List.mem_cons_self _ _, h2⟩
    · obtain ⟨b, hb, he⟩ := h1
      exact Or.inr ⟨b, List.mem_cons_of_mem _ hb, he⟩

/-- Every attribute surviving the `selectPerson` selection carries the name of
a non-archived attribute class of the store. -/
theorem selectPersonAttributes_nonarchived (db : DB) (personId : String) (attr : PrismaAttr)
    (h : attr ∈ selectPersonAttributes db personId) :
    ∃ c ∈ db.attributeClasses, c.archived = false ∧ c.name = attr.attributeClass.name := by
  simp only [selectPersonAttributes, List.mem_filterMap] at h
  obtain ⟨a, _, hfa⟩ := h
  cases hc : db.attributeClasses.find? (fun c => c.id == a.attributeClassId) with
  | none => rw [hc] at hfa; simp at hfa
  | some c =>
    rw [hc] at hfa
    by_cases harch : c.archived
    · simp [harch] at hfa
    · have harch2 : c.archived = false := by simpa using harch
      simp only [harch2, Bool.false_eq_true, if_false, Option.some.injEq] at hfa
      refine ⟨c, List.mem_of_find?_eq_some hc, harch2, ?_⟩
      rw [← hfa]

/-- Every key of a transformed person derived from a person row names a
non-archived attribute class of the store. -/
theorem transform_personToInput_classes (db : DB) (pr : PersonRow) (kv : String × String)
    (h : kv ∈ (transformPrismaPerson (personToInput db pr)).attributes) :
    ∃ c ∈ db.attributeClasses, c.archived = false ∧ c.name = kv.1 := by
  have h1 := mem_foldl_recordSet (selectPersonAttributes db pr.id) [] kv
    (by simpa [transformPrismaPerson, personToInput] using h)
  rcases h1 with h2 | ⟨a, ha, he⟩
  · cases h2
  · obtain ⟨c, hc, harch, hname⟩ := selectPersonAttributes_nonarchived db pr.id a ha
    exact ⟨c, hc, harch, hname.trans he.symm⟩

/-- A successful `getPerson` returning a person produced it by transforming a
person row of the store. -/
theorem getPerson_ok_some (isZId : String → Bool) (storeFail : Option JsError) (db : DB)
    (personId : String) (p : TPerson)
    (hp : (getPerson isZId storeFail db personId).result = Except.ok (some p)) :
    ∃ prow, db.persons.find? (fun q => q.id == personId) = some prow ∧
      p = transformPrismaPerson (personToInput db prow) := by
  unfold getPerson at hp
  split at hp
  · simp at hp
  · split at hp
    · simp at hp
    · split at hp
      · simp at hp
      · rename_i input heq
        simp only [Except.ok.injEq, Option.some.injEq] at hp
        obtain ⟨prow, hfind, hrow⟩ : ∃ prow,
            db.persons.find? (fun q => q.id == personId) = some prow ∧
              personToInput db prow = input := by
          simpa [findUniquePerson] using heq
        exact ⟨prow, hfind, by rw [← hp, ← hrow]⟩

/-- A successful `getPeople` returns exactly the transformed person rows of
the environment. -/
theorem getPeople_ok (isZId : String → Bool) (storeFail : Option JsError) (db : DB)
    (environmentId : String) (people : List TPerson)
    (hp : (getPeople isZId storeFail db environmentId).result = Except.ok people) :
    people = (db.persons.filter (fun q => q.environmentId == environmentId)).map
      (fun prow => transformPrismaPerson (personToInput db prow)) := by
  unfold getPeople at hp
  split at hp
  · simp at hp
  · split at hp
    · simp at hp
    · split at hp
      · rename_i heq
        simp [findManyPersons] at heq
      · rename_i rows heq
        simp only [findManyPersons, Option.some.injEq] at heq
        simp only [Except.ok.injEq] at hp
        rw [← hp, ← heq, List.map_map]
        rfl

/-- C5: every entry of the `attributes` mapping of a person returned by
`getPerson` or `getPeople` belongs to a non-archived attribute class — archived
classes never appear, even when an underlying attribute row references one. -/
theorem claim_C5 (isZId : String → Bool) (storeFail : Option JsError) (db : DB)
    (personId environmentId : String) :
    (∀ p, (getPerson isZId storeFail db personId).result = Except.ok (some p) →
      ∀ kv ∈ p.attributes,
        ∃ c ∈ db.attributeClasses, c.archived = false ∧ c.name = kv.1) ∧
    (∀ people, (getPeople isZId storeFail db environmentId).result = Except.ok people →
      ∀ q ∈ people, ∀ kv ∈ q.attributes,
        ∃ c ∈ db.attributeClasses, c.archived = false ∧ c.name = kv.1) := by
  constructor
  · intro p hp kv hkv
    obtain ⟨prow, _, hpeq⟩ := getPerson_ok_some isZId storeFail db personId p hp
    subst hpeq
    exact transform_personToInput_classes db prow kv hkv
  · intro people hpeople q hq kv hkv
    have hpl := getPeople_ok isZId storeFail db environmentId people hpeople
    subst hpl
    simp only [List.mem_map] at hq
    obtain ⟨prow, _, hqeq⟩ := hq
    subst hqeq
    exact transform_personToInput_classes db prow kv hkv

/-- C5 witness: a store holding both an archived and a non-archived attribute
row for one person — the surviving key "k1" belongs to the non-archived class. -/
theorem claim_C5_witness :
    ∃ c ∈ (DB.mk [⟨"p1", "e1", 0, 0⟩] [⟨"p1", "a1", "v1"⟩, ⟨"p1", "a2", "v2"⟩]
        [⟨"a1", "e1", "k1", false⟩, ⟨"a2", "e1", "k2", true⟩]).attributeClasses,
      c.archived = false ∧ c.name = ("k1", "v1").1 :=
  (claim_C5 (fun _ => true) none
      (DB.mk [⟨"p1", "e1", 0, 0⟩] [⟨"p1", "a1", "v1"⟩, ⟨"p1", "a2", "v2"⟩]
        [⟨"a1", "e1", "k1", false⟩, ⟨"a2", "e1", "k2", true⟩]) "p1" "e1").1
    (TPerson.mk "p1" [("k1", "v1")] 0 0) rfl ("k1", "v1") (by decide)

/-- The upsert touches only the attribute table. -/
theorem upsertAttribute_persons (db : DB) (cid pid v : String) :
    (upsertAttribute db cid pid v).persons = db.persons := by
  unfold upsertAttribute; split <;> rfl

/-- The upsert touches only the attribute table. -/
theorem upsertAttribute_classes (db : DB) (cid pid v : String) :
    (upsertAttribute db cid pid v).attributeClasses = db.attributeClasses := by
  unfold upsertAttribute; split <;> rfl

/-- The store state reached by `updatePersonAttribute` without store failure
is the upsert of the store. -/
theorem updatePersonAttribute_db (db : DB) (personId attributeClassId value : String) :
    (updatePersonAttribute none db personId attributeClassId value).db
      = upsertAttribute db attributeClassId personId value := rfl

/-- When the store satisfies the composite-key uniqueness invariant (at most
one row per `(attributeClassId, personId)` pair), the upsert leaves exactly
one row for the pair, holding the upserted value. -/
theorem pairFilter_upsert (db : DB) (cid pid v : String)
    (h : (pairFilter db cid pid).length ≤ 1) :
    pairFilter (upsertAttribute db cid pid v) cid pid = [AttributeRow.mk pid cid v] := by
  unfold pairFilter at h ⊢
  unfold upsertAttribute
  by_cases hany : (db.attributes.any
      (fun a => a.attributeClassId == cid && a.personId == pid)) = true
  · rw [if_pos hany]
    simp only []
    rw [List.filter_map]
    have hcong : List.filter ((fun a => a.attributeClassId == cid && a.personId == pid) ∘
          (fun a => if a.attributeClassId == cid && a.personId == pid then
              { a with value := v } else a)) db.attributes
        = List.filter (fun a => a.attributeClassId == cid && a.personId == pid) db.attributes := by
      apply List.filter_congr
      intro a _
      by_cases hpa : (a.attributeClassId == cid && a.personId == pid) = true
      · simp [Function.comp, hpa]
      · simp [Function.comp, hpa]
    rw [hcong]
    obtain ⟨x, hx, hpx⟩ := List.any_eq_true.mp hany
    have hmem : x ∈ List.filter
        (fun a => a.attributeClassId == cid && a.personId == pid) db.attributes :=
      List.mem_filter.mpr ⟨hx, hpx⟩
    have hlen : (List.filter
        (fun a => a.attributeClassId == cid && a.personId == pid) db.attributes).length = 1 := by
      have h1 : 0 < (List.filter
          (fun a => a.attributeClassId == cid && a.personId == pid) db.attributes).length :=
        List.length_pos.mpr (List.ne_nil_of_mem hmem)
      omega
    obtain ⟨a0, ha0⟩ := List.length_eq_one.mp hlen
    rw [ha0]
    have hpa0 : (a0.attributeClassId == cid && a0.personId == pid) = true := by
      have hm : a0 ∈ List.filter
          (fun a => a.attributeClassId == cid && a.personId == pid) db.attributes := by
        rw [ha0]; exact List.mem_cons_self _ _
      exact (List.mem_filter.mp hm).2
    obtain ⟨apid, acid, aval⟩ := a0
    simp only [Bool.and_eq_true, beq_iff_eq] at hpa0
    simp [hpa0.1, hpa0.2]
  · rw [if_neg hany]
    simp only []
    rw [List.filter_append]
    have hnil : List.filter
        (fun a => a.attributeClassId == cid && a.personId == pid) db.attributes = [] := by
      rw [List.filter_eq_nil_iff]
      intro a ha hpa
      exact hany (List.any_eq_true.mpr ⟨a, ha, hpa⟩)
    rw [hnil]
    simp

/-- Upserting twice onto a person that starts with no attribute rows appends
exactly one row, holding the second value. -/
theorem upsert_twice_fresh (db : DB) (cid pid v1 v2 : String)
    (hfresh : ∀ a ∈ db.attributes, (a.personId == pid) = false) :
    (upsertAttribute (upsertAttribute db cid pid v1) cid pid v2).attributes
      = db.attributes ++ [AttributeRow.mk pid cid v2] := by
  have hany1 : (db.attributes.any
      (fun a => a.attributeClassId == cid && a.personId == pid)) = false := by
    rw [List.any_eq_false]
    intro a ha
    simp [hfresh a ha]
  have h1 : upsertAttribute db cid pid v1
      = { db with attributes := db.attributes ++ [AttributeRow.mk pid cid v1] } := by
    unfold upsertAttribute
    rw [if_neg (by simp [hany1])]
  rw [h1]
  unfold upsertAttribute
  rw [if_pos (by simp)]
  simp only [List.map_append]
  congr 1
  · have hid : ∀ a ∈ db.attributes,
        (if a.attributeClassId == cid && a.personId == pid then
          { a with value := v2 } else a) = id a := by
      intro a ha
      rw [if_neg]
      · rfl
      · simp [hfresh a ha]
    rw [List.map_congr_left hid, List.map_id]
  · simp

/-- C7: two sequential `updatePersonAttribute` calls on the same
`(personId, attributeClassId)` pair leave exactly one attribute row for the
pair, holding the second value (given the store's composite-key uniqueness
invariant); and on a person that had no prior attributes, a subsequent
`getPerson` reflects the second value under the class's name. -/
theorem claim_C7 (isZId : String → Bool) (db : DB)
    (personId attributeClassId v1 v2 : String) :
    ((pairFilter db attributeClassId personId).length ≤ 1 →
      pairFilter (updatePersonAttribute none
          (updatePersonAttribute none db personId attributeClassId v1).db
          personId attributeClassId v2).db attributeClassId personId
        = [AttributeRow.mk personId attributeClassId v2]) ∧
    (∀ prow cls,
      (∀ a ∈ db.attributes, (a.personId == personId) = false) →
      db.persons.find? (fun q => q.id == personId) = some prow →
      db.attributeClasses.find? (fun c => c.id == attributeClassId) = some cls →
      cls.archived = false →
      isZId personId = true →
      ∃ p, (getPerson isZId none
          (updatePersonAttribute none
            (updatePersonAttribute none db personId attributeClassId v1).db
            personId attributeClassId v2).db personId).result = Except.ok (some p) ∧
        recordLookup p.attributes cls.name = some v2) := by
  constructor
  · intro h
    rw [updatePersonAttribute_db, updatePersonAttribute_db]
    have h1 := pairFilter_upsert db attributeClassId personId v1 h
    have hle1 : (pairFilter (upsertAttribute db attributeClassId personId v1)
        attributeClassId personId).length ≤ 1 := by
      rw [h1]; simp
    exact pairFilter_upsert _ attributeClassId personId v2 hle1
  · intro prow cls hfresh hprow hcls harch hz
    rw [updatePersonAttribute_db, updatePersonAttribute_db]
    have hattrs := upsert_twice_fresh db attributeClassId personId v1 v2 hfresh
    have hpers : (upsertAttribute (upsertAttribute db attributeClassId personId v1)
        attributeClassId personId v2).persons = db.persons := by
      rw [upsertAttribute_persons, upsertAttribute_persons]
    have hclasses : (upsertAttribute (upsertAttribute db attributeClassId personId v1)
        attributeClassId personId v2).attributeClasses = db.attributeClasses := by
      rw [upsertAttribute_classes, upsertAttribute_classes]
    have hprowid : prow.id = personId := by
      simpa using List.find?_some hprow
    have hsel : selectPersonAttributes (upsertAttribute
          (upsertAttribute db attributeClassId personId v1) attributeClassId personId v2)
          prow.id
        = [PrismaAttr.mk v2 (PrismaAttrClass.mk cls.name)] := by
      unfold selectPersonAttributes
      rw [hattrs, hclasses, hprowid]
      rw [List.filter_append]
      have hnil : db.attributes.filter (fun a => a.personId == personId) = [] := by
        rw [List.filter_eq_nil_iff]
        intro a ha hpa
        rw [hfresh a ha] at hpa
        cases hpa
      rw [hnil]
      simp [hcls, harch]
    have hfind : findUniquePerson (upsertAttribute
          (upsertAttribute db attributeClassId personId v1) attributeClassId personId v2)
          personId
        = some (personToInput (upsertAttribute
            (upsertAttribute db attributeClassId personId v1) attributeClassId personId v2)
            prow) := by
      unfold findUniquePerson
      rw [hpers, hprow]
      rfl
    refine ⟨transformPrismaPerson (personToInput (upsertAttribute
        (upsertAttribute db attributeClassId personId v1) attributeClassId personId v2)
        prow), ?_, ?_⟩
    · simp [getPerson, validateInputs, hz, hfind]
    · have hpti : personToInput (upsertAttribute
            (upsertAttribute db attributeClassId personId v1) attributeClassId personId v2)
            prow
          = TransformPersonInput.mk prow.id [PrismaAttr.mk v2 (PrismaAttrClass.mk cls.name)]
              prow.createdAt prow.updatedAt := by
        unfold personToInput
        rw [hsel]
      rw [hpti]
      simp [transformPrismaPerson, recordSet, recordLookup]

/-- C7 witness: a store with one person, the class "score", and no attribute
rows — updating the "score" attribute twice leaves one row with value "v2"
and `getPerson` reads "v2". -/
theorem claim_C7_witness :
    (pairFilter (updatePersonAttribute none
        (updatePersonAttribute none
          (DB.mk [⟨"p1", "e1", 0, 0⟩] [] [⟨"ac1", "e1", "score", false⟩])
          "p1" "ac1" "v1").db
        "p1" "ac1" "v2").db "ac1" "p1"
      = [AttributeRow.mk "p1" "ac1" "v2"]) ∧
    (∃ p, (getPerson (fun _ => true) none
        (updatePersonAttribute none
          (updatePersonAttribute none
            (DB.mk [⟨"p1", "e1", 0, 0⟩] [] [⟨"ac1", "e1", "score", false⟩])
            "p1" "ac1" "v1").db
          "p1" "ac1" "v2").db "p1").result = Except.ok (some p) ∧
      recordLookup p.attributes "score" = some "v2") :=
  have h := claim_C7 (fun _ => true)
    (DB.mk [⟨"p1", "e1", 0, 0⟩] [] [⟨"ac1", "e1", "score", false⟩]) "p1" "ac1" "v1" "v2"
  ⟨h.1 (by decide),
    h.2 ⟨"p1", "e1", 0, 0⟩ ⟨"ac1", "e1", "score", false⟩ (by decide) (by decide) (by decide)
      rfl rfl⟩

/-- The attribute-class lookup only returns classes carrying the requested name. -/
theorem getAttributeClassByName_name (db : DB) (environmentId name : String)
    (cls : AttributeClassRow)
    (h : getAttributeClassByName db environmentId name = some cls) :
    cls.name = name := by
  have hp := List.find?_some (show db.attributeClasses.find?
      (fun c => c.environmentId == environmentId && c.name == name) = some cls from h)
  simp only [Bool.and_eq_true, beq_iff_eq] at hp
  exact hp.2

/-- After the create branch of `getOrCreatePersonByUserId` runs, the
`findFirst` query locates exactly the person row it created. -/
theorem findFirst_after_create (db : DB) (environmentId userId newId : String) (ts : Nat)
    (cls : AttributeClassRow)
    (hcls : getAttributeClassByName db environmentId "userId" = some cls)
    (hclsId : db.attributeClasses.find? (fun c => c.id == cls.id) = some cls)
    (hff : findFirstPersonByUserId db environmentId userId = none)
    (hfreshP : ∀ p ∈ db.persons, (p.id == newId) = false) :
    findFirstPersonByUserId
        (DB.mk (db.persons ++ [PersonRow.mk newId environmentId ts ts])
          (db.attributes ++ [AttributeRow.mk newId cls.id userId])
          db.attributeClasses)
        environmentId userId
      = some (personToInput
          (DB.mk (db.persons ++ [PersonRow.mk newId environmentId ts ts])
            (db.attributes ++ [AttributeRow.mk newId cls.id userId])
            db.attributeClasses)
          (PersonRow.mk newId environmentId ts ts)) := by
  have hclsName : cls.name = "userId" :=
    getAttributeClassByName_name db environmentId "userId" cls hcls
  have hffn : db.persons.find? (personMatchesUserId db environmentId userId) = none := by
    cases hq : db.persons.find? (personMatchesUserId db environmentId userId) with
    | none => rfl
    | some q =>
      unfold findFirstPersonByUserId at hff
      rw [hq] at hff
      simp at hff
  have hpred : ∀ p ∈ db.persons,
      personMatchesUserId
        (DB.mk (db.persons ++ [PersonRow.mk newId environmentId ts ts])
          (db.attributes ++ [AttributeRow.mk newId cls.id userId])
          db.attributeClasses)
        environmentId userId p = false := by
    intro p hp
    have hold : personMatchesUserId db environmentId userId p = false := by
      have h1 := List.find?_eq_none.mp hffn p hp
      simpa using h1
    have hnew : (newId == p.id) = false := by
      rw [beq_eq_false_iff_ne]
      intro h1
      have h2 : (p.id == newId) = true := by simp [h1]
      rw [hfreshP p hp] at h2
      cases h2
    unfold personMatchesUserId at hold ⊢
    simp only [List.any_append, List.any_cons, List.any_nil, hnew, Bool.false_and,
      Bool.or_false] at hold ⊢
    exact hold
  have hrow : personMatchesUserId
      (DB.mk (db.persons ++ [PersonRow.mk newId environmentId ts ts])
        (db.attributes ++ [AttributeRow.mk newId cls.id userId])
        db.attributeClasses)
      environmentId userId (PersonRow.mk newId environmentId ts ts) = true := by
    unfold personMatchesUserId
    simp [List.any_append, hclsId, hclsName]
  unfold findFirstPersonByUserId
  rw [List.find?_append]
  rw [List.find?_eq_none.mpr (by intro p hp; simp [hpred p hp])]
  rw [List.find?_cons_of_pos _ hrow]
  rfl

/-- C8: with the "userId" attribute class present and a fresh store-generated
id, two sequential `getOrCreatePersonByUserId` calls with identical arguments
both succeed with the same person id, the second call leaves the store
unchanged, and (when the first call had to create and the class is not
archived) the created person carries `attributes = {userId: value}`. -/
theorem claim_C8 (db : DB) (userId environmentId newId : String) (ts : Nat)
    (cls : AttributeClassRow)
    (hcls : getAttributeClassByName db environmentId "userId" = some cls)
    (hclsId : db.attributeClasses.find? (fun c => c.id == cls.id) = some cls)
    (hfreshP : ∀ p ∈ db.persons, (p.id == newId) = false)
    (hfreshA : ∀ a ∈ db.attributes, (a.personId == newId) = false) :
    ∃ p1 p2,
      (getOrCreatePersonByUserId none none newId ts db userId environmentId).result
        = Except.ok p1 ∧
      (getOrCreatePersonByUserId none none newId ts
          (getOrCreatePersonByUserId none none newId ts db userId environmentId).db
          userId environmentId).result = Except.ok p2 ∧
      p1.id = p2.id ∧
      (getOrCreatePersonByUserId none none newId ts
          (getOrCreatePersonByUserId none none newId ts db userId environmentId).db
          userId environmentId).db
        = (getOrCreatePersonByUserId none none newId ts db userId environmentId).db ∧
      (findFirstPersonByUserId db environmentId userId = none → cls.archived = false →
        p1.attributes = [("userId", userId)]) := by
  cases hff : findFirstPersonByUserId db environmentId userId with
  | some input =>
    have hr : getOrCreatePersonByUserId none none newId ts db userId environmentId
        = ⟨Except.ok (transformPrismaPerson input), db, [], 1⟩ := by
      unfold getOrCreatePersonByUserId
      rw [hff]
    refine ⟨transformPrismaPerson input, transformPrismaPerson input, ?_, ?_, rfl, ?_, ?_⟩
    · rw [hr]
    · simp only [hr]
    · simp only [hr]
    · intro hnone _
      cases hnone
  | none =>
    have hclsName : cls.name = "userId" :=
      getAttributeClassByName_name db environmentId "userId" cls hcls
    have hr1 : getOrCreatePersonByUserId none none newId ts db userId environmentId
        = ⟨Except.ok (transformPrismaPerson (personToInput
              (DB.mk (db.persons ++ [PersonRow.mk newId environmentId ts ts])
                (db.attributes ++ [AttributeRow.mk newId cls.id userId])
                db.attributeClasses)
              (PersonRow.mk newId environmentId ts ts))),
            DB.mk (db.persons ++ [PersonRow.mk newId environmentId ts ts])
              (db.attributes ++ [AttributeRow.mk newId cls.id userId])
              db.attributeClasses,
            [newId], 3⟩ := by
      unfold getOrCreatePersonByUserId
      rw [hff, hcls]
    have hff1 := findFirst_after_create db environmentId userId newId ts cls hcls hclsId
      hff hfreshP
    have hr2 : getOrCreatePersonByUserId none none newId ts
        (DB.mk (db.persons ++ [PersonRow.mk newId environmentId ts ts])
          (db.attributes ++ [AttributeRow.mk newId cls.id userId])
          db.attributeClasses)
        userId environmentId
        = ⟨Except.ok (transformPrismaPerson (personToInput
              (DB.mk (db.persons ++ [PersonRow.mk newId environmentId ts ts])
                (db.attributes ++ [AttributeRow.mk newId cls.id userId])
                db.attributeClasses)
              (PersonRow.mk newId environmentId ts ts))),
            DB.mk (db.persons ++ [PersonRow.mk newId environmentId ts ts])
              (db.attributes ++ [AttributeRow.mk newId cls.id userId])
              db.attributeClasses,
            [], 1⟩ := by
      unfold getOrCreatePersonByUserId
      rw [hff1]
    refine ⟨transformPrismaPerson (personToInput
        (DB.mk (db.persons ++ [PersonRow.mk newId environmentId ts ts])
          (db.attributes ++ [AttributeRow.mk newId cls.id userId])
          db.attributeClasses)
        (PersonRow.mk newId environmentId ts ts)),
      transformPrismaPerson (personToInput
        (DB.mk (db.persons ++ [PersonRow.mk newId environmentId ts ts])
          (db.attributes ++ [AttributeRow.mk newId cls.id userId])
          db.attributeClasses)
        (PersonRow.mk newId environmentId ts ts)), ?_, ?_, rfl, ?_, ?_⟩
    · rw [hr1]
    · simp only [hr1]
      rw [hr2]
    · simp only [hr1]
      rw [hr2]
    · intro _ harch
      have hsel : selectPersonAttributes
          (DB.mk (db.persons ++ [PersonRow.mk newId environmentId ts ts])
            (db.attributes ++ [AttributeRow.mk newId cls.id userId])
            db.attributeClasses)
          newId = [PrismaAttr.mk userId (PrismaAttrClass.mk "userId")] := by
        unfold selectPersonAttributes
        simp only [List.filter_append]
        have hnil : db.attributes.filter (fun a => a.personId == newId) = [] := by
          rw [List.filter_eq_nil_iff]
          intro a ha hpa
          rw [hfreshA a ha] at hpa
          cases hpa
        rw [hnil]
        simp [hclsId, harch, hclsName]
      show (transformPrismaPerson (personToInput
          (DB.mk (db.persons ++ [PersonRow.mk newId environmentId ts ts])
            (db.attributes ++ [AttributeRow.mk newId cls.id userId])
            db.attributeClasses)
          (PersonRow.mk newId environmentId ts ts))).attributes = [("userId", userId)]
      unfold personToInput
      simp only []
      rw [hsel]
      simp [transformPrismaPerson, recordSet]

/-- C8 witness: an environment holding only the "userId" class — the first
call creates person "p1" with `attributes = {userId: "u1"}`, the second call
returns the same person and leaves the store unchanged. -/
theorem claim_C8_witness :
    ∃ p1 p2,
      (getOrCreatePersonByUserId none none "p1" 0
          (DB.mk [] [] [⟨"ac1", "e1", "userId", false⟩]) "u1" "e1").result
        = Except.ok p1 ∧
      (getOrCreatePersonByUserId none none "p1" 0
          (getOrCreatePersonByUserId none none "p1" 0
            (DB.mk [] [] [⟨"ac1", "e1", "userId", false⟩]) "u1" "e1").db
          "u1" "e1").result = Except.ok p2 ∧
      p1.id = p2.id ∧
      (getOrCreatePersonByUserId none none "p1" 0
          (getOrCreatePersonByUserId none none "p1" 0
            (DB.mk [] [] [⟨"ac1", "e1", "userId", false⟩]) "u1" "e1").db
          "u1" "e1").db
        = (getOrCreatePersonByUserId none none "p1" 0
            (DB.mk [] [] [⟨"ac1", "e1", "userId", false⟩]) "u1" "e1").db ∧
      (findFirstPersonByUserId (DB.mk [] [] [⟨"ac1", "e1", "userId", false⟩]) "e1" "u1" = none →
        (⟨"ac1", "e1", "userId", false⟩ : AttributeClassRow).archived = false →
        p1.attributes = [("userId", "u1")]) :=
  claim_C8 (DB.mk [] [] [⟨"ac1", "e1", "userId", false⟩]) "u1" "e1" "p1" 0
    ⟨"ac1", "e1", "userId", false⟩ (by decide) (by decide) (by decide) (by decide)

end PersonService
